import Mathlib

/-!
Shallow embedding of the Conway Game of Life canvas component
(`ConwayGame` in `components/render-homepage-code.tsx`): the grid type,
`countAliveNeighbors`, `update`, the `draw` tick, canvas setup and the
resize handler, together with proofs about them.
-/

namespace Conway

/-- Grids as in the source: `number[][]`, a list of rows. -/
abbrev Grid := List (List Nat)

/-- `grid[x][y]` for natural indices; reads outside the stored lists default
to `0` (the source only reads after its own bounds check). -/
def getCell (g : Grid) (x y : Nat) : Nat := (g.getD x []).getD y 0

/-- `grid[a][b]` for integer indices, as they arise from `x + i`, `y + j`
in the neighbor loops. -/
def getCellI (g : Grid) (a b : Int) : Nat := getCell g a.toNat b.toNat

/-- The source's bounds check
`x+i >= 0 && x+i < height && y+j >= 0 && y+j < width`. -/
def inBounds (height width : Nat) (a b : Int) : Bool :=
  decide (0 ≤ a) && decide (a < (height : Int)) &&
    decide (0 ≤ b) && decide (b < (width : Int))

/-- The eight offsets the nested `i`, `j` loops visit, in loop order;
`(0,0)` is skipped by the `continue`. -/
def neighborOffsets : List (Int × Int) :=
  [(-1,-1), (-1,0), (-1,1), (0,-1), (0,1), (1,-1), (1,0), (1,1)]

/-- `countAliveNeighbors(grid, x, y)` from the source: running count over
the eight neighbor offsets, adding `grid[x+i][y+j]` when the bounds check
passes and skipping the offset otherwise. -/
def countAliveNeighbors (height width : Nat) (g : Grid) (x y : Nat) : Nat :=
  neighborOffsets.foldl
    (fun count d =>
      if inBounds height width ((x : Int) + d.1) ((y : Int) + d.2) then
        count + getCellI g ((x : Int) + d.1) ((y : Int) + d.2)
      else count)
    0

/-- Build a `height × width` grid from a cell function, the shape the source
uses both for the random initial grid and (cell by cell) for `newGrid`. -/
def mkGrid (h w : Nat) (f : Nat → Nat → Nat) : Grid :=
  (List.range h).map (fun i => (List.range w).map (fun j => f i j))

/-- The per-cell branch of `update`: birth on exactly 3 neighbors, death
under 2 or over 3 neighbors, otherwise the cell is copied. -/
def ruleCell (height width : Nat) (g : Grid) (i j : Nat) : Nat :=
  let neighbors := countAliveNeighbors height width g i j
  if getCell g i j = 0 ∧ neighbors = 3 then 1
  else if getCell g i j = 1 ∧ (neighbors < 2 ∨ neighbors > 3) then 0
  else getCell g i j

/-- `update(grid)` from the source, as the function from the input snapshot
to the returned `newGrid`: a fresh `height × width` buffer whose every cell
is `ruleCell` of the snapshot. -/
def update (height width : Nat) (g : Grid) : Grid :=
  mkGrid height width (ruleCell height width g)

/-- One tick of `draw()` from the source. The two availability flags model
`ctx` and `canvas` being non-null. The first component is the grid whose
alive cells the tick paints (`none` when the tick returns early before the
`clearRect`/`fillRect` calls); the second is the value of the `grid`
variable after the tick (`grid = update(grid)` runs last). -/
def draw (height width : Nat) (ctxOk canvasOk : Bool) (g : Grid) :
    Option Grid × Grid :=
  if !ctxOk || !canvasOk then (none, g)
  else (some g, update height width g)

/-- The canvas element's pixel size. -/
structure CanvasState where
  width : Nat
  height : Nat
deriving DecidableEq

/-- `cellSize` from the source. -/
def cellSize : Nat := 5

/-- `updateCanvasSize()` from the source: `canvas.width = window.innerWidth;
canvas.height = 100`. -/
def updateCanvasSize (innerWidth : Nat) : CanvasState :=
  { width := innerWidth, height := 100 }

/-- The state captured by the effect closure: the canvas size and the
`width`, `height` and `grid` variables. -/
structure GameState where
  canvas : CanvasState
  width : Nat
  height : Nat
  grid : Grid
deriving DecidableEq

/-- `Math.ceil(a / b)` on natural inputs. -/
def ceilDiv (a b : Nat) : Nat := (a + b - 1) / b

/-- The effect body's setup: size the canvas, derive the grid dimensions
from it once, and build the random initial grid (`rand` stands for the
sampled `Math.round(Math.random())` values). -/
def setup (innerWidth : Nat) (rand : Nat → Nat → Nat) : GameState :=
  let c := updateCanvasSize innerWidth
  let width := ceilDiv c.width cellSize
  let height := ceilDiv c.height cellSize
  { canvas := c, width := width, height := height,
    grid := mkGrid height width rand }

/-- The `resize` listener: it calls `updateCanvasSize` and nothing else, so
only the canvas size changes; `width`, `height` and `grid` are untouched. -/
def onResize (innerWidth : Nat) (s : GameState) : GameState :=
  { s with canvas := updateCanvasSize innerWidth }

/-- The birth/survival/death rule exactly as the specification states it:
a dead cell becomes alive iff it has exactly 3 live neighbors; a live cell
stays alive iff it has 2 or 3 live neighbors. -/
def conwaySpecRule (s n : Nat) : Nat :=
  if s = 0 then (if n = 3 then 1 else 0)
  else (if n = 2 ∨ n = 3 then 1 else 0)

/-- The specification's description of neighbor counting: the sum of the
states of exactly those of the 8 adjacent coordinates that lie within
`[0, height) × [0, width)`; out-of-bounds coordinates contribute nothing
and the cell itself is not among the offsets. -/
def specNeighborSum (h w : Nat) (g : Grid) (x y : Nat) : Nat :=
  (neighborOffsets.map (fun d =>
    if inBounds h w ((x : Int) + d.1) ((y : Int) + d.2) then
      getCellI g ((x : Int) + d.1) ((y : Int) + d.2)
    else 0)).sum

theorem getCell_mkGrid (h w : Nat) (f : Nat → Nat → Nat) (i j : Nat)
    (hi : i < h) (hj : j < w) : getCell (mkGrid h w f) i j = f i j := by
  simp [getCell, mkGrid, List.getD_eq_getElem?_getD, List.getElem?_map,
    List.getElem?_range, hi, hj]

theorem getCell_mkGrid_oob (h w : Nat) (f : Nat → Nat → Nat) (i j : Nat)
    (hij : h ≤ i ∨ w ≤ j) : getCell (mkGrid h w f) i j = 0 := by
  rcases hij with hi | hj
  · simp [getCell, mkGrid, List.getD_eq_getElem?_getD, List.getElem?_map,
      List.getElem?_eq_none, hi]
  · rcases Nat.lt_or_ge i h with hi | hi
    · simp [getCell, mkGrid, List.getD_eq_getElem?_getD, List.getElem?_map,
        List.getElem?_range, List.getElem?_eq_none, hi, hj]
    · simp [getCell, mkGrid, List.getD_eq_getElem?_getD, List.getElem?_map,
        List.getElem?_eq_none, hi]

theorem mkGrid_congr (h w : Nat) (f g : Nat → Nat → Nat)
    (hfg : ∀ i j, i < h → j < w → f i j = g i j) :
    mkGrid h w f = mkGrid h w g := by
  simp only [mkGrid]
  refine List.map_congr_left (fun i hi => ?_)
  refine List.map_congr_left (fun j hj => ?_)
  exact hfg i j (List.mem_range.mp hi) (List.mem_range.mp hj)

theorem foldl_guard_add (t : Int × Int → Nat) (p : Int × Int → Bool) :
    ∀ (l : List (Int × Int)) (a : Nat),
      l.foldl (fun c d => if p d then c + t d else c) a =
        a + (l.map (fun d => if p d then t d else 0)).sum := by
  intro l
  induction l with
  | nil => intro a; simp
  | cons d l ih =>
      intro a
      simp only [List.foldl_cons, List.map_cons, List.sum_cons, ih]
      split <;> omega

theorem countAliveNeighbors_eq_specSum (h w : Nat) (g : Grid) (x y : Nat) :
    countAliveNeighbors h w g x y = specNeighborSum h w g x y := by
  rw [countAliveNeighbors, specNeighborSum, foldl_guard_add, Nat.zero_add]

theorem count_mkGrid (h w : Nat) (f : Nat → Nat → Nat) (x y : Nat) :
    countAliveNeighbors h w (mkGrid h w f) x y =
      (neighborOffsets.map (fun d =>
        if inBounds h w ((x : Int) + d.1) ((y : Int) + d.2) then
          f ((x : Int) + d.1).toNat ((y : Int) + d.2).toNat
        else 0)).sum := by
  rw [countAliveNeighbors, foldl_guard_add, Nat.zero_add]
  refine congrArg List.sum (List.map_congr_left (fun d _ => ?_))
  by_cases hb : inBounds h w ((x : Int) + d.1) ((y : Int) + d.2)
  · simp only [hb, if_true]
    have hbp := hb
    simp only [inBounds, Bool.and_eq_true, decide_eq_true_eq] at hbp
    exact getCell_mkGrid h w f _ _ (by omega) (by omega)
  · simp [hb]

theorem ruleCell_spec (h w : Nat) (g : Grid) (i j : Nat)
    (hs : getCell g i j ≤ 1) :
    ruleCell h w g i j =
      conwaySpecRule (getCell g i j) (countAliveNeighbors h w g i j) := by
  simp only [ruleCell, conwaySpecRule]
  generalize countAliveNeighbors h w g i j = n
  rcases Nat.le_one_iff_eq_zero_or_eq_one.mp hs with h0 | h0 <;>
    rw [h0] <;> split_ifs <;> first | omega | tauto

theorem getCell_update (h w : Nat) (g : Grid) (i j : Nat)
    (hi : i < h) (hj : j < w) :
    getCell (update h w g) i j = ruleCell h w g i j :=
  getCell_mkGrid h w _ i j hi hj

/-- A 2×2 block of alive cells with corner `(r, c)`, all other cells dead. -/
def blockGrid (h w r c : Nat) : Grid :=
  mkGrid h w (fun i j =>
    if r ≤ i ∧ i ≤ r + 1 ∧ c ≤ j ∧ j ≤ c + 1 then 1 else 0)

theorem block_term (h w r c : Nat) (hr : r + 1 < h) (hc : c + 1 < w)
    (a b : Int) :
    (if inBounds h w a b then
        (if r ≤ a.toNat ∧ a.toNat ≤ r + 1 ∧ c ≤ b.toNat ∧ b.toNat ≤ c + 1
          then 1 else 0)
      else 0) =
      (if (r : Int) ≤ a ∧ a ≤ (r : Int) + 1 ∧ (c : Int) ≤ b ∧ b ≤ (c : Int) + 1
        then 1 else 0) := by
  simp only [inBounds, Bool.and_eq_true, decide_eq_true_eq]
  split_ifs <;> omega

set_option maxHeartbeats 1000000 in
theorem count_blockGrid (h w r c : Nat) (hr : r + 1 < h) (hc : c + 1 < w)
    (i j : Nat) :
    (r ≤ i ∧ i ≤ r + 1 ∧ c ≤ j ∧ j ≤ c + 1 →
        countAliveNeighbors h w (blockGrid h w r c) i j = 3) ∧
    (¬(r ≤ i ∧ i ≤ r + 1 ∧ c ≤ j ∧ j ≤ c + 1) →
        countAliveNeighbors h w (blockGrid h w r c) i j ≤ 2) := by
  rw [blockGrid, count_mkGrid]
  simp only [neighborOffsets, List.map_cons, List.map_nil, List.sum_cons,
    List.sum_nil, block_term h w r c hr hc]
  constructor <;> intro hb <;> split_ifs <;> omega

theorem block_cell (h w r c : Nat) (hr : r + 1 < h) (hc : c + 1 < w)
    (i j : Nat) (hi : i < h) (hj : j < w) :
    ruleCell h w (blockGrid h w r c) i j =
      (if r ≤ i ∧ i ≤ r + 1 ∧ c ≤ j ∧ j ≤ c + 1 then 1 else 0) := by
  obtain ⟨h3, h2⟩ := count_blockGrid h w r c hr hc i j
  have hg : getCell (blockGrid h w r c) i j =
      (if r ≤ i ∧ i ≤ r + 1 ∧ c ≤ j ∧ j ≤ c + 1 then 1 else 0) :=
    getCell_mkGrid h w _ i j hi hj
  rw [ruleCell_spec h w _ i j (by rw [hg]; split <;> omega), hg]
  by_cases hb : r ≤ i ∧ i ≤ r + 1 ∧ c ≤ j ∧ j ≤ c + 1
  · rw [if_pos hb, h3 hb]; decide
  · rw [if_neg hb, conwaySpecRule, if_pos rfl,
      if_neg (by have := h2 hb; omega)]

/-- A horizontal blinker: three alive cells in row `r`, columns `c - 1`,
`c`, `c + 1`, all other cells dead. -/
def hblinkGrid (h w r c : Nat) : Grid :=
  mkGrid h w (fun i j => if i = r ∧ c - 1 ≤ j ∧ j ≤ c + 1 then 1 else 0)

/-- A vertical blinker: three alive cells in column `c`, rows `r - 1`,
`r`, `r + 1`, all other cells dead. -/
def vblinkGrid (h w r c : Nat) : Grid :=
  mkGrid h w (fun i j => if r - 1 ≤ i ∧ i ≤ r + 1 ∧ j = c then 1 else 0)

theorem hblink_term (h w r c : Nat) (hr1 : 1 ≤ r) (hr2 : r + 1 < h)
    (hc1 : 1 ≤ c) (hc2 : c + 1 < w) (a b : Int) :
    (if inBounds h w a b then
        (if a.toNat = r ∧ c - 1 ≤ b.toNat ∧ b.toNat ≤ c + 1 then 1 else 0)
      else 0) =
      (if a = (r : Int) ∧ (c : Int) - 1 ≤ b ∧ b ≤ (c : Int) + 1
        then 1 else 0) := by
  simp only [inBounds, Bool.and_eq_true, decide_eq_true_eq]
  split_ifs <;> omega

theorem vblink_term (h w r c : Nat) (hr1 : 1 ≤ r) (hr2 : r + 1 < h)
    (hc1 : 1 ≤ c) (hc2 : c + 1 < w) (a b : Int) :
    (if inBounds h w a b then
        (if r - 1 ≤ a.toNat ∧ a.toNat ≤ r + 1 ∧ b.toNat = c then 1 else 0)
      else 0) =
      (if (r : Int) - 1 ≤ a ∧ a ≤ (r : Int) + 1 ∧ b = (c : Int)
        then 1 else 0) := by
  simp only [inBounds, Bool.and_eq_true, decide_eq_true_eq]
  split_ifs <;> omega

set_option maxHeartbeats 2000000 in
theorem count_hblink (h w r c : Nat) (hr1 : 1 ≤ r) (hr2 : r + 1 < h)
    (hc1 : 1 ≤ c) (hc2 : c + 1 < w) (i j : Nat) :
    (i = r ∧ j = c →
        countAliveNeighbors h w (hblinkGrid h w r c) i j = 2) ∧
    (i = r ∧ (j = c - 1 ∨ j = c + 1) →
        countAliveNeighbors h w (hblinkGrid h w r c) i j = 1) ∧
    ((i = r - 1 ∨ i = r + 1) ∧ j = c →
        countAliveNeighbors h w (hblinkGrid h w r c) i j = 3) ∧
    (¬(i = r ∧ c - 1 ≤ j ∧ j ≤ c + 1) ∧ ¬((i = r - 1 ∨ i = r + 1) ∧ j = c) →
        countAliveNeighbors h w (hblinkGrid h w r c) i j ≤ 2) := by
  rw [hblinkGrid, count_mkGrid]
  simp only [neighborOffsets, List.map_cons, List.map_nil, List.sum_cons,
    List.sum_nil, hblink_term h w r c hr1 hr2 hc1 hc2]
  refine ⟨?_, ?_, ?_, ?_⟩ <;> intro hb <;> split_ifs <;> omega

set_option maxHeartbeats 2000000 in
theorem count_vblink (h w r c : Nat) (hr1 : 1 ≤ r) (hr2 : r + 1 < h)
    (hc1 : 1 ≤ c) (hc2 : c + 1 < w) (i j : Nat) :
    (i = r ∧ j = c →
        countAliveNeighbors h w (vblinkGrid h w r c) i j = 2) ∧
    ((i = r - 1 ∨ i = r + 1) ∧ j = c →
        countAliveNeighbors h w (vblinkGrid h w r c) i j = 1) ∧
    (i = r ∧ (j = c - 1 ∨ j = c + 1) →
        countAliveNeighbors h w (vblinkGrid h w r c) i j = 3) ∧
    (¬(r - 1 ≤ i ∧ i ≤ r + 1 ∧ j = c) ∧ ¬(i = r ∧ (j = c - 1 ∨ j = c + 1)) →
        countAliveNeighbors h w (vblinkGrid h w r c) i j ≤ 2) := by
  rw [vblinkGrid, count_mkGrid]
  simp only [neighborOffsets, List.map_cons, List.map_nil, List.sum_cons,
    List.sum_nil, vblink_term h w r c hr1 hr2 hc1 hc2]
  refine ⟨?_, ?_, ?_, ?_⟩ <;> intro hb <;> split_ifs <;> omega

theorem hblink_cell (h w r c : Nat) (hr1 : 1 ≤ r) (hr2 : r + 1 < h)
    (hc1 : 1 ≤ c) (hc2 : c + 1 < w) (i j : Nat) (hi : i < h) (hj : j < w) :
    ruleCell h w (hblinkGrid h w r c) i j =
      (if r - 1 ≤ i ∧ i ≤ r + 1 ∧ j = c then 1 else 0) := by
  obtain ⟨n2, n1, n3, n0⟩ := count_hblink h w r c hr1 hr2 hc1 hc2 i j
  have hg : getCell (hblinkGrid h w r c) i j =
      (if i = r ∧ c - 1 ≤ j ∧ j ≤ c + 1 then 1 else 0) :=
    getCell_mkGrid h w _ i j hi hj
  rw [ruleCell_spec h w _ i j (by rw [hg]; split <;> omega), hg]
  by_cases hA : i = r ∧ c - 1 ≤ j ∧ j ≤ c + 1
  · rw [if_pos hA]
    by_cases hc0 : j = c
    · rw [n2 ⟨hA.1, hc0⟩, if_pos (by omega)]; decide
    · rw [n1 ⟨hA.1, by omega⟩, if_neg (by omega)]; decide
  · rw [if_neg hA]
    by_cases hB : (i = r - 1 ∨ i = r + 1) ∧ j = c
    · rw [n3 hB, if_pos (by omega)]; decide
    · rw [conwaySpecRule, if_pos rfl, if_neg (by have := n0 ⟨hA, hB⟩; omega),
        if_neg (by omega)]

theorem vblink_cell (h w r c : Nat) (hr1 : 1 ≤ r) (hr2 : r + 1 < h)
    (hc1 : 1 ≤ c) (hc2 : c + 1 < w) (i j : Nat) (hi : i < h) (hj : j < w) :
    ruleCell h w (vblinkGrid h w r c) i j =
      (if i = r ∧ c - 1 ≤ j ∧ j ≤ c + 1 then 1 else 0) := by
  obtain ⟨n2, n1, n3, n0⟩ := count_vblink h w r c hr1 hr2 hc1 hc2 i j
  have hg : getCell (vblinkGrid h w r c) i j =
      (if r - 1 ≤ i ∧ i ≤ r + 1 ∧ j = c then 1 else 0) :=
    getCell_mkGrid h w _ i j hi hj
  rw [ruleCell_spec h w _ i j (by rw [hg]; split <;> omega), hg]
  by_cases hA : r - 1 ≤ i ∧ i ≤ r + 1 ∧ j = c
  · rw [if_pos hA]
    by_cases hc0 : i = r
    · rw [n2 ⟨hc0, hA.2.2⟩, if_pos (by omega)]; decide
    · rw [n1 ⟨by omega, hA.2.2⟩, if_neg (by omega)]; decide
  · rw [if_neg hA]
    by_cases hB : i = r ∧ (j = c - 1 ∨ j = c + 1)
    · rw [n3 hB, if_pos (by omega)]; decide
    · rw [conwaySpecRule, if_pos rfl, if_neg (by have := n0 ⟨hA, hB⟩; omega),
        if_neg (by omega)]

theorem update_hblink (h w r c : Nat) (hr1 : 1 ≤ r) (hr2 : r + 1 < h)
    (hc1 : 1 ≤ c) (hc2 : c + 1 < w) :
    update h w (hblinkGrid h w r c) = vblinkGrid h w r c :=
  mkGrid_congr h w _ _
    (fun i j hi hj => hblink_cell h w r c hr1 hr2 hc1 hc2 i j hi hj)

theorem update_vblink (h w r c : Nat) (hr1 : 1 ≤ r) (hr2 : r + 1 < h)
    (hc1 : 1 ≤ c) (hc2 : c + 1 < w) :
    update h w (vblinkGrid h w r c) = hblinkGrid h w r c :=
  mkGrid_congr h w _ _
    (fun i j hi hj => vblink_cell h w r c hr1 hr2 hc1 hc2 i j hi hj)

/-- The two buffers `update` works with: the input snapshot `grid` and the
output buffer `newGrid`. -/
structure UpdState where
  grid : Grid
  newGrid : Grid
deriving DecidableEq

/-- The assignment `newGrid[i][j] = v` on list-of-list grids. -/
def setCell (g : Grid) (i j v : Nat) : Grid :=
  g.set i ((g.getD i []).set j v)

/-- The body of the inner `for j` loop of `update`: one assignment
`newGrid[i][j] = <rule applied to grid>`; `grid` itself is only read. -/
def cellWrite (height width : Nat) (s : UpdState) (i j : Nat) : UpdState :=
  { s with
    newGrid := setCell s.newGrid i j (ruleCell height width s.grid i j) }

/-- The nested `for i` / `for j` loops of `update`. -/
def updateLoop (height width : Nat) (s : UpdState) : UpdState :=
  (List.range height).foldl
    (fun s1 i =>
      (List.range width).foldl (fun s2 j => cellWrite height width s2 i j) s1)
    s

/-- `update` as the source executes it: allocate the zero-filled
`height × width` buffer `Array(height).fill(null).map(() => Array(width).fill(0))`
and run the loops over the snapshot. -/
def updateImp (height width : Nat) (g : Grid) : UpdState :=
  updateLoop height width
    ⟨g, List.replicate height (List.replicate width 0)⟩

theorem list_ext_getD {α : Type} (d : α) (l1 l2 : List α)
    (hl : l1.length = l2.length)
    (he : ∀ k, k < l1.length → l1.getD k d = l2.getD k d) : l1 = l2 := by
  refine List.ext_getElem hl (fun i h1 h2 => ?_)
  rw [← List.getD_eq_getElem l1 d h1, ← List.getD_eq_getElem l2 d h2]
  exact he i h1

theorem getD_set_eq {α : Type} (d : α) (l : List α) (i : Nat) (a : α)
    (hi : i < l.length) : (l.set i a).getD i d = a := by
  rw [List.getD_eq_getElem?_getD, List.getElem?_set_eq_of_lt a hi]
  rfl

theorem getD_set_ne {α : Type} (d : α) (l : List α) (i k : Nat) (a : α)
    (hik : i ≠ k) : (l.set i a).getD k d = l.getD k d := by
  rw [List.getD_eq_getElem?_getD, List.getD_eq_getElem?_getD,
    List.getElem?_set_ne hik]

theorem set_getD_self {α : Type} (d : α) (l : List α) (i : Nat)
    (hi : i < l.length) : l.set i (l.getD i d) = l := by
  refine list_ext_getD d _ _ (by simp) (fun k hk => ?_)
  by_cases hik : i = k
  · subst hik; rw [getD_set_eq d l i _ hi]
  · rw [getD_set_ne d l i k _ hik]

theorem inner_fold_eq (height width : Nat) (i : Nat) :
    ∀ (l : List Nat) (g ng : Grid),
      (l.foldl (fun s2 j => cellWrite height width s2 i j)
          (⟨g, ng⟩ : UpdState)) =
        ⟨g, l.foldl
          (fun r j => setCell r i j (ruleCell height width g i j)) ng⟩ := by
  intro l
  induction l with
  | nil => intro g ng; rfl
  | cons x l ih =>
      intro g ng
      simp only [List.foldl_cons]
      exact ih g _

theorem updateLoop_eq (height width : Nat) :
    ∀ (l : List Nat) (g ng : Grid),
      (l.foldl
          (fun s1 i =>
            (List.range width).foldl
              (fun s2 j => cellWrite height width s2 i j) s1)
          (⟨g, ng⟩ : UpdState)) =
        ⟨g, l.foldl
          (fun ng2 i =>
            (List.range width).foldl
              (fun r j => setCell r i j (ruleCell height width g i j)) ng2)
          ng⟩ := by
  intro l
  induction l with
  | nil => intro g ng; rfl
  | cons x l ih =>
      intro g ng
      simp only [List.foldl_cons, inner_fold_eq height width x (List.range width) g ng]
      exact ih g _

theorem foldl_set_length {α : Type} (f : Nat → α) :
    ∀ (l : List Nat) (row : List α),
      (l.foldl (fun r j => r.set j (f j)) row).length = row.length := by
  intro l
  induction l with
  | nil => intro row; rfl
  | cons x l ih =>
      intro row
      simp only [List.foldl_cons, ih, List.length_set]

theorem foldl_set_getD {α : Type} (d : α) (f : Nat → α) :
    ∀ (l : List Nat) (row : List α) (k : Nat), k < row.length →
      (l.foldl (fun r j => r.set j (f j)) row).getD k d =
        if k ∈ l then f k else row.getD k d := by
  intro l
  induction l with
  | nil => intro row k hk; simp
  | cons x l ih =>
      intro row k hk
      simp only [List.foldl_cons]
      rw [ih (row.set x (f x)) k (by simp [hk])]
      by_cases hkl : k ∈ l
      · simp [hkl, List.mem_cons]
      · by_cases hkx : k = x
        · subst hkx
          rw [if_neg hkl, if_pos (List.mem_cons_self k l),
            getD_set_eq d row k (f k) hk]
        · have : k ∉ (x :: l) := by
            simp [List.mem_cons, hkl, fun hh => hkx hh]
          rw [if_neg hkl, if_neg this, getD_set_ne d row x k _ (fun hh => hkx hh.symm)]

theorem setCell_fold_eq (v : Nat → Nat) (i : Nat) :
    ∀ (l : List Nat) (ng : Grid), i < ng.length →
      l.foldl (fun r j => setCell r i j (v j)) ng =
        ng.set i (l.foldl (fun r j => r.set j (v j)) (ng.getD i [])) := by
  intro l
  induction l with
  | nil => intro ng hi; rw [List.foldl_nil, List.foldl_nil, set_getD_self [] ng i hi]
  | cons x l ih =>
      intro ng hi
      simp only [List.foldl_cons]
      rw [ih (setCell ng i x (v x)) (by simp [setCell, hi])]
      simp only [setCell]
      rw [List.set_set, getD_set_eq [] ng i _ hi]

theorem grid_fold_length (width : Nat) (F : Nat → Nat → Nat) :
    ∀ (l : List Nat) (ng : Grid),
      (l.foldl
        (fun ng2 i =>
          (List.range width).foldl (fun r j => setCell r i j (F i j)) ng2)
        ng).length = ng.length := by
  have hstep : ∀ (i : Nat) (l2 : List Nat) (ng : Grid),
      (l2.foldl (fun r j => setCell r i j (F i j)) ng).length = ng.length := by
    intro i l2
    induction l2 with
    | nil => intro ng; rfl
    | cons x l2 ih =>
        intro ng
        rw [List.foldl_cons, ih]
        simp [setCell]
  intro l
  induction l with
  | nil => intro ng; rfl
  | cons x l ih =>
      intro ng
      simp only [List.foldl_cons, ih, hstep]

theorem grid_fold_getD (width : Nat) (F : Nat → Nat → Nat) :
    ∀ (l : List Nat) (ng : Grid) (k : Nat), l.Nodup →
      (∀ x ∈ l, x < ng.length) → k < ng.length →
      (l.foldl
          (fun ng2 i =>
            (List.range width).foldl (fun r j => setCell r i j (F i j)) ng2)
          ng).getD k [] =
        if k ∈ l then
          (List.range width).foldl (fun r j => r.set j (F k j)) (ng.getD k [])
        else ng.getD k [] := by
  intro l
  induction l with
  | nil => intro ng k _ _ _; simp
  | cons x l ih =>
      intro ng k hnd hbound hk
      simp only [List.foldl_cons]
      rw [setCell_fold_eq (F x) x (List.range width) ng
        (hbound x (List.mem_cons_self x l))]
      have hnd2 := List.nodup_cons.mp hnd
      rw [ih _ k hnd2.2
        (fun z hz => by
          rw [List.length_set]; exact hbound z (List.mem_cons_of_mem x hz))
        (by rw [List.length_set]; exact hk)]
      by_cases hkl : k ∈ l
      · rw [if_pos hkl, if_pos (List.mem_cons_of_mem x hkl),
          getD_set_ne [] ng x k _ (fun hh => hnd2.1 (hh ▸ hkl))]
      · by_cases hkx : k = x
        · subst hkx
          rw [if_neg hkl, if_pos (List.mem_cons_self k l),
            getD_set_eq [] ng k _ (hbound k (List.mem_cons_self k l))]
        · have hknotin : k ∉ (x :: l) := by
            simp [List.mem_cons, hkl, fun hh => hkx hh]
          rw [if_neg hkl, if_neg hknotin,
            getD_set_ne [] ng x k _ (fun hh => hkx hh.symm)]

theorem getD_map_range {α : Type} (d : α) (w : Nat) (f : Nat → α) (k : Nat)
    (hk : k < w) : ((List.range w).map f).getD k d = f k := by
  rw [List.getD_eq_getElem?_getD, List.getElem?_map, List.getElem?_range hk]
  rfl

theorem mkGrid_row (h w : Nat) (f : Nat → Nat → Nat) (k : Nat) (hk : k < h) :
    (mkGrid h w f).getD k [] = (List.range w).map (f k) := by
  rw [mkGrid, getD_map_range [] h _ k hk]

theorem update_length (h w : Nat) (g : Grid) : (update h w g).length = h := by
  simp [update, mkGrid]

theorem update_row_length (h w : Nat) (g : Grid) :
    ∀ row ∈ update h w g, row.length = w := by
  intro row hrow
  simp only [update, mkGrid, List.mem_map] at hrow
  obtain ⟨i, _, rfl⟩ := hrow
  simp

theorem updateImp_eq (h w : Nat) (g : Grid) :
    updateImp h w g = ⟨g, update h w g⟩ := by
  rw [updateImp, updateLoop, updateLoop_eq h w (List.range h) g _]
  refine congrArg (UpdState.mk g) ?_
  have hbuflen : (List.replicate h (List.replicate w (0 : Nat))).length = h :=
    List.length_replicate h _
  refine list_ext_getD [] _ _ ?_ (fun k hk => ?_)
  · rw [grid_fold_length w _ (List.range h) _, hbuflen, update_length]
  · rw [grid_fold_length w _ (List.range h) _, hbuflen] at hk
    rw [grid_fold_getD w (ruleCell h w g) (List.range h) _ k
        (List.nodup_range h)
        (fun z hz => by rw [hbuflen]; exact List.mem_range.mp hz)
        (by rw [hbuflen]; exact hk),
      if_pos (List.mem_range.mpr hk), update, mkGrid_row h w _ k hk]
    have hrep : (List.replicate h (List.replicate w (0 : Nat))).getD k [] =
        List.replicate w 0 := by
      rw [List.getD_eq_getElem?_getD, List.getElem?_replicate]
      simp [hk]
    rw [hrep]
    refine list_ext_getD 0 _ _ ?_ (fun m hm => ?_)
    · rw [foldl_set_length, List.length_replicate, List.length_map,
        List.length_range]
    · rw [foldl_set_length, List.length_replicate] at hm
      rw [foldl_set_getD 0 _ (List.range w) _ m
          (by rw [List.length_replicate]; exact hm),
        if_pos (List.mem_range.mpr hm), getD_map_range 0 w _ m hm]

/-- C1: for every grid of binary cells and every in-bounds cell `(i, j)`,
the cell's state in the grid `update` returns follows Conway's rule
(birth on exactly 3 neighbors, survival on 2 or 3, death otherwise)
applied to `countAliveNeighbors` of the input snapshot. -/
theorem claim1_update_follows_rule (h w : Nat) (g : Grid) (i j : Nat)
    (hi : i < h) (hj : j < w) (hs : getCell g i j ≤ 1) :
    getCell (update h w g) i j =
      conwaySpecRule (getCell g i j) (countAliveNeighbors h w g i j) := by
  rw [getCell_update h w g i j hi hj, ruleCell_spec h w g i j hs]

theorem claim1_witness :
    getCell (update 2 2 [[1, 1], [0, 0]]) 0 0 =
      conwaySpecRule (getCell [[1, 1], [0, 0]] 0 0)
        (countAliveNeighbors 2 2 [[1, 1], [0, 0]] 0 0) :=
  claim1_update_follows_rule 2 2 [[1, 1], [0, 0]] 0 0 (by decide) (by decide)
    (by decide)

/-- C2: for every grid of binary cells, `countAliveNeighbors` returns the
sum of the states of exactly those of the 8 adjacent coordinates that lie
within `[0, height) × [0, width)` (out-of-bounds neighbors contribute
nothing, the cell itself is not counted), and the result is at most 8
(hence in `[0, 8]`, the count being a natural number). -/
theorem claim2_count_correct (h w : Nat) (g : Grid) (x y : Nat)
    (hb : ∀ i j, getCell g i j ≤ 1) :
    countAliveNeighbors h w g x y = specNeighborSum h w g x y ∧
    countAliveNeighbors h w g x y ≤ 8 := by
  refine ⟨countAliveNeighbors_eq_specSum h w g x y, ?_⟩
  rw [countAliveNeighbors_eq_specSum h w g x y, specNeighborSum]
  have hle := List.sum_le_card_nsmul
    (neighborOffsets.map (fun d =>
      if inBounds h w ((x : Int) + d.1) ((y : Int) + d.2) then
        getCellI g ((x : Int) + d.1) ((y : Int) + d.2)
      else 0)) 1 ?_
  · simpa [neighborOffsets] using hle
  · intro t ht
    obtain ⟨d, _, rfl⟩ := List.mem_map.mp ht
    split
    · exact hb _ _
    · omega

theorem claim2_witness :
    countAliveNeighbors 2 2 [[1, 0], [0, 1]] 0 0 =
        specNeighborSum 2 2 [[1, 0], [0, 1]] 0 0 ∧
      countAliveNeighbors 2 2 [[1, 0], [0, 1]] 0 0 ≤ 8 :=
  claim2_count_correct 2 2 [[1, 0], [0, 1]] 0 0 (fun i j => by
    rcases i with _ | _ | i <;> rcases j with _ | _ | j <;>
      simp [getCell, List.getD_eq_getElem?_getD])

/-- C3: `update` never mutates its input snapshot (the `grid` component of
the loop state is the unchanged input when the loops finish), and it
returns the freshly allocated `height × width` buffer it wrote. -/
theorem claim3_update_no_mutation (h w : Nat) (g : Grid) :
    (updateImp h w g).grid = g ∧
    (updateImp h w g).newGrid = update h w g ∧
    (update h w g).length = h ∧
    ∀ row ∈ update h w g, row.length = w := by
  rw [updateImp_eq]
  exact ⟨rfl, rfl, update_length h w g, update_row_length h w g⟩

/-- C4 counterexample: on an available surface, the state a tick draws is
the input snapshot, which differs from the output of that tick's `update`
call on a blinker (the claim says the drawn state equals that output). -/
theorem claim4_counterexample :
    (draw 5 5 true true
        [[0, 0, 0, 0, 0], [0, 0, 0, 0, 0], [0, 1, 1, 1, 0],
         [0, 0, 0, 0, 0], [0, 0, 0, 0, 0]]).1 ≠
      some (update 5 5
        [[0, 0, 0, 0, 0], [0, 0, 0, 0, 0], [0, 1, 1, 1, 0],
         [0, 0, 0, 0, 0], [0, 0, 0, 0, 0]]) := by
  decide

/-- C4 amended: a tick with an available surface renders the current
snapshot first and only then computes the next generation and stores it;
the state drawn in a tick is the input snapshot (the previous tick's
output), and `update`'s output becomes the grid for the next tick. -/
theorem claim4_amended (h w : Nat) (g : Grid) :
    draw h w true true g = (some g, update h w g) := rfl

/-- C5 counterexample: after a resize notification the recorded grid width
no longer equals the new canvas width divided (rounding up) by the cell
pitch, because the resize listener does not recompute it. -/
theorem claim5_counterexample :
    (onResize 200 (setup 100 (fun _ _ => 0))).width ≠
      ceilDiv (onResize 200 (setup 100 (fun _ _ => 0))).canvas.width
        cellSize := by
  decide

/-- C5 amended: a resize notification only updates the canvas surface size
(width to the new `window.innerWidth`, height to 100); the grid and the
recorded grid dimensions are left untouched — the grid is not discarded,
recreated or re-randomized. -/
theorem claim5_amended (iw : Nat) (s : GameState) :
    (onResize iw s).grid = s.grid ∧ (onResize iw s).width = s.width ∧
    (onResize iw s).height = s.height ∧
    (onResize iw s).canvas = updateCanvasSize iw :=
  ⟨rfl, rfl, rfl, rfl⟩

/-- C6: at surface width 0 the derived grid width is
`Math.ceil(0 / cellSize) = 0`, not clamped to 1: the code builds an empty
(zero-column) grid, contradicting the specified 1×1 minimum. -/
theorem claim6_zero_surface :
    (setup 0 (fun _ _ => 0)).canvas.width = 0 ∧
    (setup 0 (fun _ _ => 0)).width = 0 := by
  decide

/-- C7: a 2×2 block of alive cells, everything else dead, on a grid of at
least 4×4 that contains the block, is a fixed point of `update`. -/
theorem claim7_block_still_life (h w r c : Nat) (_hh : 4 ≤ h) (_hw : 4 ≤ w)
    (hr : r + 1 < h) (hc : c + 1 < w) :
    update h w (blockGrid h w r c) = blockGrid h w r c :=
  mkGrid_congr h w _ _ (fun i j hi hj => block_cell h w r c hr hc i j hi hj)

theorem claim7_witness :
    update 4 4 (blockGrid 4 4 1 1) = blockGrid 4 4 1 1 :=
  claim7_block_still_life 4 4 1 1 (by decide) (by decide) (by decide)
    (by decide)

/-- C8: a horizontal blinker (three alive cells in a row, in-bounds with
one cell of margin) on a grid of at least 5×5 returns to itself after two
applications of `update`. -/
theorem claim8_blinker_period_two (h w r c : Nat) (_hh : 5 ≤ h) (_hw : 5 ≤ w)
    (hr1 : 1 ≤ r) (hr2 : r + 1 < h) (hc1 : 1 ≤ c) (hc2 : c + 1 < w) :
    update h w (update h w (hblinkGrid h w r c)) = hblinkGrid h w r c := by
  rw [update_hblink h w r c hr1 hr2 hc1 hc2,
    update_vblink h w r c hr1 hr2 hc1 hc2]

theorem claim8_witness :
    update 5 5 (update 5 5 (hblinkGrid 5 5 2 2)) = hblinkGrid 5 5 2 2 :=
  claim8_blinker_period_two 5 5 2 2 (by decide) (by decide) (by decide)
    (by decide) (by decide) (by decide)

/-- C9: for every grid dimensions, the fully dead grid maps under `update`
to the fully dead grid: no cell becomes alive. -/
theorem claim9_dead_grid (h w : Nat) :
    update h w (mkGrid h w (fun _ _ => 0)) = mkGrid h w (fun _ _ => 0) := by
  refine mkGrid_congr h w _ _ (fun i j hi hj => ?_)
  have hg : getCell (mkGrid h w (fun _ _ => 0)) i j = 0 :=
    getCell_mkGrid h w _ i j hi hj
  rw [ruleCell_spec h w _ i j (by rw [hg]; exact Nat.zero_le 1), hg]
  have hcnt : countAliveNeighbors h w (mkGrid h w (fun _ _ => 0)) i j = 0 := by
    rw [count_mkGrid]
    simp
  rw [hcnt]
  decide

/-- C10: when the surface or its context is unavailable, a tick returns
early: nothing is rendered and the grid does not advance. -/
theorem claim10_draw_unavailable (h w : Nat) (g : Grid)
    (ctxOk canvasOk : Bool) (hna : ctxOk = false ∨ canvasOk = false) :
    draw h w ctxOk canvasOk g = (none, g) := by
  rcases hna with rfl | rfl
  · rfl
  · rcases ctxOk <;> rfl

theorem claim10_witness :
    draw 3 3 false true [[1]] = (none, [[1]]) :=
  claim10_draw_unavailable 3 3 [[1]] false true (Or.inl rfl)

end Conway
